import Mathlib

/-!
Verification of the multimedia-review task/file processing coordinator.

Shallow embedding of the distributed-lock primitive
(app/services/queue_service.py), the task/file data model
(app/models/task.py, app/models/file.py, app/models/result.py), the
coordinator services (app/services/task_service.py,
app/services/file_service.py), and the worker flow
(app/workers/review_worker.py).
-/

namespace MultimediaReview

/-! ## Lease lock (app/services/queue_service.py, task_lock / file_lock)

The lock for one resource is a single Redis key holding the owner token,
set with `SET key value NX EX ttl` and released with a compare-and-delete
Lua script.  We model the key's state as `Option Lease` (owner token plus
absolute expiry instant) and time as `Nat`. -/

/-- One stored lock value: the owner token written by `SET ... NX EX ttl`
together with the absolute instant at which Redis expires the key. -/
structure Lease where
  owner : String
  expiry : Nat
deriving DecidableEq

/-- Redis key-expiry semantics: a stored key is visible only strictly
before its expiry instant; past it the key behaves as absent. -/
def liveLease (s : Option Lease) (now : Nat) : Option Lease :=
  match s with
  | some l => if now < l.expiry then some l else none
  | none => none

/-- Embedding of `cache_redis.set(lock_key, lock_value, nx=True, ex=timeout)`
(queue_service.py lines 53 and 85): succeeds and stores the token with
expiry `now + ttl` iff no live key exists, otherwise leaves the key alone
and reports failure (the context manager then raises `RuntimeError`). -/
def acquire (s : Option Lease) (now : Nat) (tok : String) (ttl : Nat) :
    Bool × Option Lease :=
  match liveLease s now with
  | some l => (false, some l)
  | none => (true, some ⟨tok, now + ttl⟩)

/-- Embedding of the release Lua script (queue_service.py lines 63-70 and
94-100): `if get(key) == value then del(key) else 0` — the key is deleted
only when the stored value still equals the caller's token. -/
def releaseLock (s : Option Lease) (now : Nat) (tok : String) :
    Bool × Option Lease :=
  match liveLease s now with
  | some l => if l.owner = tok then (true, none) else (false, some l)
  | none => (false, none)

/-- Owner currently holding a live (non-expired) lease on the resource,
as observed by `is_task_processing` / `is_file_processing`. -/
def heldBy (s : Option Lease) (now : Nat) : Option String :=
  (liveLease s now).map Lease.owner

/-! ## Task / File / Result data model (app/models/task.py, file.py, result.py)

Only the fields the coordinator logic reads or writes are embedded;
`updated_at` / `created_at` bookkeeping timestamps and the purely
descriptive columns (names, paths, hashes, mime types, OCR block counts)
play no role in any verified flow.  Timestamps are abstract `Nat`
instants threaded through as a `now` parameter. -/

/-- Task status enumeration (app/models/task.py, `TaskStatus`). -/
inductive TaskStatus
  | pending
  | processing
  | completed
  | failed
  | cancelled
deriving DecidableEq

/-- File status enumeration (app/models/file.py, `FileStatus`). -/
inductive FileStatus
  | pending
  | uploading
  | processing
  | completed
  | failed
  | cancelled
deriving DecidableEq

/-- File type enumeration (app/models/file.py, `FileType`). -/
inductive FileType
  | document
  | image
  | video
  | text
deriving DecidableEq

/-- Verdict enumeration for one detection result
(app/models/result.py, `ViolationResult`). -/
inductive ViolationResult
  | compliant
  | non_compliant
  | uncertain
deriving DecidableEq

/-- One `review_files` row (app/models/file.py, `ReviewFile`), restricted
to the coordinator-relevant columns. -/
structure ReviewFile where
  id : Nat
  file_type : FileType
  status : FileStatus
  progress : Nat
  error_message : Option String
  violation_count : Nat
  processed_at : Option Nat
deriving DecidableEq

/-- One `review_tasks` row (app/models/task.py, `ReviewTask`), restricted
to the coordinator-relevant columns. -/
structure ReviewTask where
  status : TaskStatus
  progress : Nat
  error_message : Option String
  total_files : Nat
  processed_files : Nat
  violation_count : Nat
  started_at : Option Nat
  completed_at : Option Nat
deriving DecidableEq

/-- One `review_results` row (app/models/result.py, `ReviewResult`),
restricted to the owning file and the verdict. -/
structure ReviewResult where
  file_id : Nat
  violation_result : ViolationResult
deriving DecidableEq

/-- Database state for a single task: its row, its `ReviewFile` rows, and
the `ReviewResult` rows of those files. -/
structure TaskDB where
  task : ReviewTask
  files : List ReviewFile
  results : List ReviewResult
deriving DecidableEq

/-- Embedding of `ReviewTask.update_progress` (app/models/task.py lines
184-189): `progress = int((processed_files / total_files) * 100)` when
`total_files > 0`, else 0.  The source evaluates the expression in
binary64 floating point; this definition idealizes it to exact floor
division.  The two can differ by one: for 29 processed of 100 the source
stores 28 while exact floor division gives 29 — see `pythonProgress`
below for the bit-exact binary64 evaluation of the source expression.
The theorems stated over this idealized definition conclude only about
statuses, counters, and repeat-determinism, which the deviation does not
affect. -/
def ReviewTask.update_progress (t : ReviewTask) : ReviewTask :=
  if 0 < t.total_files then
    { t with progress := t.processed_files * 100 / t.total_files }
  else
    { t with progress := 0 }

/-- Embedding of `query(ReviewFile).filter(id == file_id).first()`. -/
def getFileById (db : TaskDB) (fid : Nat) : Option ReviewFile :=
  db.files.find? (fun f => f.id = fid)

/-- Count of the task's files with `violation_count > 0`, the query run by
`TaskService.update_task_progress` and `TaskService.complete_task`
(task_service.py lines 300-307 and 339-346). -/
def violationFileCount (db : TaskDB) : Nat :=
  db.files.countP (fun f => 0 < f.violation_count)

/-- Bulk update of every file row whose id matches, mirroring
`query(ReviewFile).filter(...).update({...})` and the single-row update
paths (the id is unique in the database, so at most one row changes). -/
def setFile (files : List ReviewFile) (fid : Nat)
    (upd : ReviewFile → ReviewFile) : List ReviewFile :=
  files.map (fun f => if f.id = fid then upd f else f)

namespace TaskService

/-- Embedding of `TaskService.update_task_progress` (task_service.py lines
281-314): optionally overwrite `processed_files`, recompute the progress
percentage, and recompute `violation_count` as the number of the task's
files with `violation_count > 0`. -/
def update_task_progress (db : TaskDB) (processed_files : Option Nat) :
    TaskDB :=
  let t := db.task
  let t := match processed_files with
    | some p => { t with processed_files := p }
    | none => t
  let t := t.update_progress
  let t := { t with violation_count := violationFileCount db }
  { db with task := t }

/-- Embedding of `TaskService.complete_task` (task_service.py lines
316-351): set the final status (recording the error message on failure),
stamp `completed_at`, recompute progress, and recompute the
violating-file count. -/
def complete_task (db : TaskDB) (success : Bool)
    (error_message : Option String) (now : Nat) : TaskDB :=
  let t := db.task
  let t := if success then { t with status := TaskStatus.completed }
    else { t with status := TaskStatus.failed, error_message := error_message }
  let t := { t with completed_at := some now }
  let t := t.update_progress
  let t := { t with violation_count := violationFileCount db }
  { db with task := t }

/-- Embedding of `TaskService.cancel_task` (task_service.py lines
353-383): only a pending or processing task may be cancelled (otherwise
`BusinessError` is raised and nothing changes); on success the task is set
to cancelled and every file whose status is pending or processing is set
to cancelled. -/
def cancel_task (db : TaskDB) : Except String TaskDB :=
  if db.task.status = TaskStatus.pending ∨
      db.task.status = TaskStatus.processing then
    let t := { db.task with status := TaskStatus.cancelled }
    let files := db.files.map (fun f =>
      if f.status = FileStatus.pending ∨ f.status = FileStatus.processing then
        { f with status := FileStatus.cancelled }
      else f)
    Except.ok { db with task := t, files := files }
  else
    Except.error "task status does not allow cancel"

/-- Embedding of `TaskService.start_task` (task_service.py lines 223-279):
starting is forbidden while processing (`BusinessError`), requires at
least one file (`BusinessError`), resets every file to pending with
progress 0 and cleared error / processed_at when restarting from a
terminal state, and finally moves the task to processing with all
counters reset and `total_files` set to the file count. -/
def start_task (db : TaskDB) (now : Nat) : Except String TaskDB :=
  if db.task.status = TaskStatus.processing then
    Except.error "task status does not allow starting"
  else
    let file_count := db.files.length
    if file_count = 0 then
      Except.error "task has no files"
    else
      let files :=
        if db.task.status = TaskStatus.cancelled ∨
            db.task.status = TaskStatus.failed ∨
            db.task.status = TaskStatus.completed then
          db.files.map (fun f =>
            { f with status := FileStatus.pending, progress := 0,
                     error_message := none, processed_at := none })
        else db.files
      let t := { db.task with
        status := TaskStatus.processing, started_at := some now,
        total_files := file_count, processed_files := 0,
        violation_count := 0, progress := 0,
        error_message := none, completed_at := none }
      Except.ok { db with task := t, files := files }

end TaskService

namespace FileService

/-- Embedding of `FileService.update_file_status` (file_service.py lines
217-255): set the new status, clamp an optionally supplied progress to
[0,100], record an optionally supplied error message, and on completion
force progress to 100 and stamp `processed_at`.  An absent file raises
`NotFoundError` in the source; every verified flow reads the file first,
so absence is modelled as leaving the row set unchanged. -/
def update_file_status (db : TaskDB) (fid : Nat) (status : FileStatus)
    (progress : Option Nat) (error_message : Option String) (now : Nat) :
    TaskDB :=
  { db with files := setFile db.files fid (fun f =>
      let f := { f with status := status }
      let f := match progress with
        | some p => { f with progress := min 100 p }
        | none => f
      let f := match error_message with
        | some e => { f with error_message := some e }
        | none => f
      if status = FileStatus.completed then
        { f with processed_at := some now, progress := 100 }
      else f) }

/-- Embedding of `FileService.update_file_violation_count`
(file_service.py lines 288-313): the file's `violation_count` becomes the
number of `ReviewResult` rows with this `file_id` — the query has no
verdict filter, so compliant and uncertain results are counted exactly
like non-compliant ones. -/
def update_file_violation_count (db : TaskDB) (fid : Nat) : TaskDB :=
  { db with files := setFile db.files fid (fun f =>
      { f with violation_count := db.results.countP (fun r => r.file_id = fid) }) }

end FileService

/-! ## Worker flow (app/workers/review_worker.py) -/

/-- Count of the task's files in status completed or failed, the query at
review_worker.py lines 858-861 that defines `processed_files`. -/
def terminalFileCount (files : List ReviewFile) : Nat :=
  files.countP (fun f =>
    f.status = FileStatus.completed ∨ f.status = FileStatus.failed)

/-- Count of the task's files in status failed
(review_worker.py lines 873-876). -/
def failedFileCount (files : List ReviewFile) : Nat :=
  files.countP (fun f => f.status = FileStatus.failed)

/-- Embedding of the worker helper `_update_task_progress`
(review_worker.py lines 849-890): recompute `processed_files` as the
count of completed-or-failed files; if that count has reached the number
of the task's file rows, finish the task — completed when no file failed,
completed when only some files failed, failed (with the source's error
message) when every file failed. -/
def updateTaskProgressAggregate (db : TaskDB) (now : Nat) : TaskDB :=
  let completed_files := terminalFileCount db.files
  let db1 := TaskService.update_task_progress db (some completed_files)
  let total_files := db.files.length
  if total_files ≤ completed_files then
    let failed_files := failedFileCount db.files
    if failed_files = 0 then
      TaskService.complete_task db1 true none now
    else if failed_files < total_files then
      TaskService.complete_task db1 true none now
    else
      TaskService.complete_task db1 false (some "所有文件处理失败") now
  else db1

/-- Return value of the Celery task `process_review_file`, abstracting the
status dictionaries it returns. -/
inductive ProcessOutcome
  | skipped
  | completedWith (results_count : Nat)
  | failedWith (error : String)
deriving DecidableEq

/-- Outcome of one run of the external extraction/classification
pipeline inside a type-specific handler, observed through its effect on
the database.  `ok findings` is a run that finishes: every finding is
persisted.  `failsAfter committed e` is a run that raises exception `e`
after the findings in `committed` were already saved and committed: the
handlers commit row by row (`_save_violation_result` does `db.add` then
`db.commit` per finding, review_worker.py lines 1032-1033), so a raise
partway through — e.g. `review_visual_content` raising in
`_process_image_file` after the text-review results were committed —
leaves that committed prefix in the database. -/
inductive PipelineOutcome
  | ok (findings : List ViolationResult)
  | failsAfter (committed : List ViolationResult) (e : String)
deriving DecidableEq

/-- Embedding of the type-specific handlers `_process_document_file`,
`_process_image_file`, `_process_video_file`, `_process_text_file`
(review_worker.py lines 195-229, 389-455, 457-547, 682-755).  On a
completed pipeline run the handler has persisted one `ReviewResult` row
per finding and returns the finding list.  On a pipeline exception the
handler's `try/except Exception` logs, rolls back only the uncommitted
work, and returns the empty list — the rows committed before the raise
persist, and the exception never escapes the handler. -/
def runTypeHandler (pipeline : PipelineOutcome)
    (db : TaskDB) (fid : Nat) : List ViolationResult × TaskDB :=
  match pipeline with
  | PipelineOutcome.ok vs =>
      (vs, { db with results := db.results ++ vs.map (fun v => ⟨fid, v⟩) })
  | PipelineOutcome.failsAfter committed _ =>
      ([], { db with
        results := db.results ++ committed.map (fun v => ⟨fid, v⟩) })

/-- Embedding of the Celery task `process_review_file` (review_worker.py
lines 115-192).  `lockAcquired` abstracts the `file_lock` context manager
(contention raises `RuntimeError`, caught and reported as skipped with no
state change).  A file absent from the database raises `NotFoundError`,
caught by the outer handler whose own status update then also fails,
leaving the database unchanged.  A file whose status is not pending or
processing is skipped unchanged.  Otherwise the file is set to
processing, the type handler runs, the file is set to completed with
progress 100, its violation count is recomputed from its result rows, and
the task-level aggregation `_update_task_progress` runs. -/
def process_review_file (lockAcquired : Bool)
    (pipeline : PipelineOutcome)
    (db : TaskDB) (fid : Nat) (now : Nat) : ProcessOutcome × TaskDB :=
  if !lockAcquired then (ProcessOutcome.skipped, db)
  else
    match getFileById db fid with
    | none => (ProcessOutcome.failedWith "file not found", db)
    | some f =>
      if f.status ≠ FileStatus.pending ∧ f.status ≠ FileStatus.processing then
        (ProcessOutcome.skipped, db)
      else
        let db1 := FileService.update_file_status db fid
          FileStatus.processing (some 0) none now
        let hr := runTypeHandler pipeline db1 fid
        let db2 := FileService.update_file_status hr.2 fid
          FileStatus.completed (some 100) none now
        let db3 := FileService.update_file_violation_count db2 fid
        let db4 := updateTaskProgressAggregate db3 now
        (ProcessOutcome.completedWith hr.1.length, db4)

/-- Observable task summary used to state aggregation idempotence: status,
progress, processed/total file counters and the violating-file counter
(everything the caller-facing progress surface reports, without the
bookkeeping timestamps). -/
def taskObs (db : TaskDB) : TaskStatus × Nat × Nat × Nat × Nat :=
  (db.task.status, db.task.progress, db.task.processed_files,
    db.task.total_files, db.task.violation_count)

/-- Convenience builder for a concrete file row in witnesses. -/
def mkFile (i : Nat) (ft : FileType) (st : FileStatus) : ReviewFile :=
  { id := i, file_type := ft, status := st, progress := 0,
    error_message := none, violation_count := 0, processed_at := none }

/-- Convenience builder for a concrete task row in witnesses. -/
def mkTask (st : TaskStatus) (total : Nat) : ReviewTask :=
  { status := st, progress := 0, error_message := none, total_files := total,
    processed_files := 0, violation_count := 0,
    started_at := none, completed_at := none }

/-! ## Bit-exact model of the source's progress expression

`ReviewTask.update_progress` in the source computes
`int((processed_files / total_files) * 100)` in Python, i.e. with two
IEEE binary64 operations (a correctly rounded division, a correctly
rounded multiplication by 100) followed by truncation toward zero.  The
following definitions evaluate that expression exactly over naturals:
`2^52 ≤ mantissa < 2^53` with round-to-nearest, ties to even, exactly as
binary64 rounds results in its normal range (the exponent range is
unbounded here, which is faithful for every realistic file count). -/

/-- Round the fraction n / d (d > 0) to the nearest integer, ties to
even — the rounding rule of IEEE binary64 arithmetic. -/
def rdiv (n d : Nat) : Nat :=
  let q := n / d
  let r := n % d
  if 2 * r < d then q
  else if d < 2 * r then q + 1
  else if q % 2 = 0 then q else q + 1

/-- Number of doublings of `a` needed to reach `bound`, fuel-bounded
(the fuel far exceeds the binary64 exponent range); used to locate the
binary point when normalizing a mantissa. -/
def mshift : Nat → Nat → Nat → Nat → Nat
  | 0, _, _, s => s
  | fuel + 1, a, bound, s =>
      if bound ≤ a then s else mshift fuel (2 * a) bound (s + 1)

/-- Bit-exact evaluation of the source's progress expression
`int((processed_files / total_files) * 100)` (app/models/task.py line
187) under Python/IEEE binary64 semantics: `p / t` is rounded to a
53-bit mantissa `m * 2^(-s)`, the product with 100 is rounded to a
53-bit mantissa `m2 * 2^(d-s)`, and the result is truncated toward
zero. -/
def pythonProgress (p t : Nat) : Nat :=
  if p = 0 ∨ t = 0 then 0
  else
    let s := mshift 1200 p (t * 2 ^ 52) 0
    let m := rdiv (p * 2 ^ s) t
    let d := mshift 1200 (2 ^ 53) (100 * m + 1) 0
    let m2 := rdiv (100 * m) (2 ^ d)
    if s ≤ d then m2 * 2 ^ (d - s) else m2 / 2 ^ (s - d)

/-! ## Theorems -/

theorem acquire_true_iff (s : Option Lease) (now : Nat) (tok : String)
    (ttl : Nat) : (acquire s now tok ttl).1 = true ↔ heldBy s now = none := by
  unfold acquire heldBy
  cases h : liveLease s now <;> simp

/-- C1.  Mutual exclusion of the lease lock: `acquire` succeeds only when
no live (non-expired) lease exists on the resource, and after a successful
`acquire` by owner `a` with time-to-live `ttlA`, every `acquire` by a
different owner `b` within the lease window fails while `a` still holds
the live lease — so two successful acquires with different owner tokens
never hold a live lease on the same resource simultaneously. -/
theorem lease_mutual_exclusion :
    (∀ (s : Option Lease) (now : Nat) (tok : String) (ttl : Nat),
      (acquire s now tok ttl).1 = true → heldBy s now = none) ∧
    (∀ (s : Option Lease) (t u : Nat) (a b : String) (ttlA ttlB : Nat),
      a ≠ b → (acquire s t a ttlA).1 = true → t ≤ u → u < t + ttlA →
        (acquire (acquire s t a ttlA).2 u b ttlB).1 = false ∧
        heldBy (acquire s t a ttlA).2 u = some a) := by
  constructor
  · intro s now tok ttl h
    exact (acquire_true_iff s now tok ttl).mp h
  · intro s t u a b ttlA ttlB _ hacq htu hu
    unfold acquire at hacq ⊢
    cases hl : liveLease s t with
    | some l => simp [hl] at hacq
    | none =>
      simp only [hl]
      unfold heldBy liveLease
      simp [Nat.lt_of_lt_of_le, hu]

/-- Witness for C1 at concrete inputs: on an empty store, owner "a"
acquires at time 0 with ttl 10; at time 5 an acquire by "b" fails and "a"
still holds the lease. -/
theorem lease_mutual_exclusion_witness :
    (acquire (acquire (none : Option Lease) 0 "a" 10).2 5 "b" 10).1 = false ∧
    heldBy (acquire (none : Option Lease) 0 "a" 10).2 5 = some "a" :=
  lease_mutual_exclusion.2 none 0 5 "a" "b" 10 10
    (by decide) (by decide) (by omega) (by omega)

/-- C2.  Lease release correctness: after owner `b` successfully acquires
the resource, a release attempt by a different token `a` inside `b`'s
lease window returns false (the Lua compare-and-delete sees a stored value
different from `a`), leaves the stored lease unchanged, and `b`'s lease
remains held afterwards. -/
theorem release_wrong_owner (s : Option Lease) (t u ttl : Nat) (a b : String)
    (hne : b ≠ a) (hacq : (acquire s t b ttl).1 = true)
    (htu : t ≤ u) (hu : u < t + ttl) :
    (releaseLock (acquire s t b ttl).2 u a).1 = false ∧
    (releaseLock (acquire s t b ttl).2 u a).2 = (acquire s t b ttl).2 ∧
    heldBy (releaseLock (acquire s t b ttl).2 u a).2 u = some b := by
  unfold acquire at hacq ⊢
  cases hl : liveLease s t with
  | some l => simp [hl] at hacq
  | none =>
    simp only [hl]
    unfold releaseLock heldBy liveLease
    simp [Nat.lt_of_lt_of_le, hu, hne]

/-- Witness for C2 at concrete inputs: "b" acquires at time 0 with ttl 60;
at time 5 a release by "a" returns false, changes nothing, and "b" still
holds the lease. -/
theorem release_wrong_owner_witness :
    (releaseLock (acquire (none : Option Lease) 0 "b" 60).2 5 "a").1 = false ∧
    (releaseLock (acquire (none : Option Lease) 0 "b" 60).2 5 "a").2 =
      (acquire (none : Option Lease) 0 "b" 60).2 ∧
    heldBy (releaseLock (acquire (none : Option Lease) 0 "b" 60).2 5 "a").2 5 =
      some "b" :=
  release_wrong_owner none 0 5 60 "a" "b"
    (by decide) (by decide) (by omega) (by omega)

/-! ### Structural lemmas about the aggregation step -/

theorem update_task_progress_files (db : TaskDB) (p : Option Nat) :
    (TaskService.update_task_progress db p).files = db.files := rfl

theorem complete_task_files (db : TaskDB) (s : Bool) (e : Option String)
    (now : Nat) : (TaskService.complete_task db s e now).files = db.files := rfl

theorem aggregate_files (db : TaskDB) (now : Nat) :
    (updateTaskProgressAggregate db now).files = db.files := by
  simp only [updateTaskProgressAggregate]
  split_ifs <;> rfl

theorem aggregate_results (db : TaskDB) (now : Nat) :
    (updateTaskProgressAggregate db now).results = db.results := by
  simp only [updateTaskProgressAggregate]
  split_ifs <;> rfl

theorem aggregate_processed (db : TaskDB) (now : Nat) :
    (updateTaskProgressAggregate db now).task.processed_files =
      terminalFileCount db.files := by
  simp only [updateTaskProgressAggregate, TaskService.update_task_progress,
    TaskService.complete_task, ReviewTask.update_progress]
  split_ifs <;> rfl

theorem aggregate_total (db : TaskDB) (now : Nat) :
    (updateTaskProgressAggregate db now).task.total_files =
      db.task.total_files := by
  simp only [updateTaskProgressAggregate, TaskService.update_task_progress,
    TaskService.complete_task, ReviewTask.update_progress]
  split_ifs <;> rfl

theorem aggregate_violation (db : TaskDB) (now : Nat) :
    (updateTaskProgressAggregate db now).task.violation_count =
      violationFileCount db := by
  simp only [updateTaskProgressAggregate, TaskService.update_task_progress,
    TaskService.complete_task, ReviewTask.update_progress]
  split_ifs <;> rfl

theorem aggregate_progress (db : TaskDB) (now : Nat) :
    (updateTaskProgressAggregate db now).task.progress =
      if 0 < db.task.total_files then
        terminalFileCount db.files * 100 / db.task.total_files
      else 0 := by
  simp only [updateTaskProgressAggregate, TaskService.update_task_progress,
    TaskService.complete_task, ReviewTask.update_progress]
  split_ifs <;> rfl

theorem aggregate_status (db : TaskDB) (now : Nat) :
    (updateTaskProgressAggregate db now).task.status =
      if db.files.length ≤ terminalFileCount db.files then
        if failedFileCount db.files = 0 ∨
            failedFileCount db.files < db.files.length then
          TaskStatus.completed
        else TaskStatus.failed
      else db.task.status := by
  simp only [updateTaskProgressAggregate, TaskService.update_task_progress,
    TaskService.complete_task, ReviewTask.update_progress]
  split_ifs with h1 h2 h3 h4 h5 <;> first | rfl | omega | tauto

/-- C3.  Partial-success aggregation policy: when every file of the task
has reached a completed/failed terminal state (the recomputed
processed-files count equals the number of file rows), the aggregation
finishes the task, moving it to completed whenever strictly fewer files
failed than exist, and to failed only when every file failed. -/
theorem partial_success_policy (db : TaskDB) (now : Nat)
    (hall : terminalFileCount db.files = db.files.length) :
    ((updateTaskProgressAggregate db now).task.status = TaskStatus.completed ∨
      (updateTaskProgressAggregate db now).task.status = TaskStatus.failed) ∧
    (failedFileCount db.files < db.files.length →
      (updateTaskProgressAggregate db now).task.status =
        TaskStatus.completed) ∧
    ((updateTaskProgressAggregate db now).task.status = TaskStatus.failed →
      failedFileCount db.files = db.files.length) := by
  have hle : failedFileCount db.files ≤ db.files.length :=
    List.countP_le_length _
  rw [aggregate_status, if_pos (le_of_eq hall.symm)]
  by_cases h : failedFileCount db.files = 0 ∨
      failedFileCount db.files < db.files.length
  · rw [if_pos h]
    refine ⟨Or.inl rfl, fun _ => rfl, fun hc => ?_⟩
    cases hc
  · rw [if_neg h]
    push_neg at h
    exact ⟨Or.inr rfl, fun hlt => absurd hlt (not_lt.mpr h.2), fun _ => le_antisymm hle h.2⟩

/-- Witness for C3 at a concrete input: a task with three files, two
completed and one failed, aggregates to status completed. -/
theorem partial_success_policy_witness :
    terminalFileCount [mkFile 1 FileType.document FileStatus.completed,
        mkFile 2 FileType.image FileStatus.completed,
        mkFile 3 FileType.text FileStatus.failed] =
      [mkFile 1 FileType.document FileStatus.completed,
        mkFile 2 FileType.image FileStatus.completed,
        mkFile 3 FileType.text FileStatus.failed].length ∧
    (updateTaskProgressAggregate
      { task := mkTask TaskStatus.processing 3,
        files := [mkFile 1 FileType.document FileStatus.completed,
          mkFile 2 FileType.image FileStatus.completed,
          mkFile 3 FileType.text FileStatus.failed],
        results := [] } 9).task.status = TaskStatus.completed :=
  ⟨by decide,
    (partial_success_policy
      { task := mkTask TaskStatus.processing 3,
        files := [mkFile 1 FileType.document FileStatus.completed,
          mkFile 2 FileType.image FileStatus.completed,
          mkFile 3 FileType.text FileStatus.failed],
        results := [] } 9 (by decide)).2.1 (by decide)⟩

/-- C6.  Skip-on-terminal: when the file's stored status is neither
pending nor processing, `process_review_file` (with the lock acquired)
returns the skipped outcome and leaves the database completely unchanged
— in particular no Result row is created and the file's status, progress
and error_message keep their values. -/
theorem skip_on_terminal (pipeline : PipelineOutcome)
    (db : TaskDB) (fid now : Nat) (f : ReviewFile)
    (hf : getFileById db fid = some f)
    (hp : f.status ≠ FileStatus.pending)
    (hq : f.status ≠ FileStatus.processing) :
    process_review_file true pipeline db fid now =
      (ProcessOutcome.skipped, db) := by
  simp [process_review_file, hf, hp, hq]

/-- Witness for C6 at a concrete input: a single already-completed file is
skipped and the database is returned unchanged. -/
theorem skip_on_terminal_witness :
    getFileById
        { task := mkTask TaskStatus.processing 1,
          files := [mkFile 1 FileType.text FileStatus.completed],
          results := [] } 1 =
      some (mkFile 1 FileType.text FileStatus.completed) ∧
    process_review_file true (PipelineOutcome.ok [ViolationResult.non_compliant])
        { task := mkTask TaskStatus.processing 1,
          files := [mkFile 1 FileType.text FileStatus.completed],
          results := [] } 1 5 =
      (ProcessOutcome.skipped,
        { task := mkTask TaskStatus.processing 1,
          files := [mkFile 1 FileType.text FileStatus.completed],
          results := [] }) :=
  ⟨by decide,
    skip_on_terminal (PipelineOutcome.ok [ViolationResult.non_compliant])
      { task := mkTask TaskStatus.processing 1,
        files := [mkFile 1 FileType.text FileStatus.completed],
        results := [] } 1 5
      (mkFile 1 FileType.text FileStatus.completed)
      (by decide) (by decide) (by decide)⟩

/-- Counterexample for C7 as stated: a processing task with a single file
in status uploading is cancelled; the task becomes cancelled but the
uploading file — non-terminal, and listed by the claim among the statuses
to be forced to cancelled — keeps status uploading, because the source
only rewrites files in {pending, processing}. -/
theorem cancel_task_counterexample :
    TaskService.cancel_task
        { task := mkTask TaskStatus.processing 1,
          files := [mkFile 1 FileType.document FileStatus.uploading],
          results := [] } =
      Except.ok
        { task := { mkTask TaskStatus.processing 1 with
            status := TaskStatus.cancelled },
          files := [mkFile 1 FileType.document FileStatus.uploading],
          results := [] } := by
  rfl

/-- C7 (amended).  Cancellation: `cancel_task` succeeds exactly when the
task status is pending or processing (otherwise it raises and changes
nothing); on success the task becomes cancelled, every file in status
pending or processing becomes cancelled, and every other file — including
one in status uploading — is left unchanged. -/
theorem cancel_task_amended (db : TaskDB) :
    (db.task.status ≠ TaskStatus.pending ∧
        db.task.status ≠ TaskStatus.processing →
      TaskService.cancel_task db =
        Except.error "task status does not allow cancel") ∧
    (∀ db', TaskService.cancel_task db = Except.ok db' →
      (db.task.status = TaskStatus.pending ∨
        db.task.status = TaskStatus.processing) ∧
      db'.task.status = TaskStatus.cancelled ∧
      db'.results = db.results ∧
      List.Forall₂ (fun f f' =>
        (f.status = FileStatus.pending ∨ f.status = FileStatus.processing →
          f' = { f with status := FileStatus.cancelled }) ∧
        (f.status ≠ FileStatus.pending ∧ f.status ≠ FileStatus.processing →
          f' = f)) db.files db'.files) := by
  constructor
  · intro h
    simp [TaskService.cancel_task, h.1, h.2]
  · intro db' hok
    unfold TaskService.cancel_task at hok
    split_ifs at hok with hst
    · cases hok
      refine ⟨hst, rfl, rfl, ?_⟩
      rw [List.forall₂_map_right_iff, List.forall₂_same]
      intro f _
      constructor
      · intro hf
        rw [if_pos hf]
      · intro hf
        rw [if_neg (by tauto)]

/-- Witness for C7 (amended) at a concrete input: cancelling a processing
task with one pending file succeeds and sets both task and file to
cancelled. -/
theorem cancel_task_amended_witness :
    TaskService.cancel_task
        { task := mkTask TaskStatus.processing 1,
          files := [mkFile 1 FileType.text FileStatus.pending],
          results := [] } =
      Except.ok
        { task := { mkTask TaskStatus.processing 1 with
            status := TaskStatus.cancelled },
          files := [mkFile 1 FileType.text FileStatus.cancelled],
          results := [] } ∧
    List.Forall₂ (fun f f' =>
        (f.status = FileStatus.pending ∨ f.status = FileStatus.processing →
          f' = { f with status := FileStatus.cancelled }) ∧
        (f.status ≠ FileStatus.pending ∧ f.status ≠ FileStatus.processing →
          f' = f))
      [mkFile 1 FileType.text FileStatus.pending]
      [mkFile 1 FileType.text FileStatus.cancelled] :=
  ⟨by rfl,
    ((cancel_task_amended
      { task := mkTask TaskStatus.processing 1,
        files := [mkFile 1 FileType.text FileStatus.pending],
        results := [] }).2
      { task := { mkTask TaskStatus.processing 1 with
          status := TaskStatus.cancelled },
        files := [mkFile 1 FileType.text FileStatus.cancelled],
        results := [] } (by rfl)).2.2.2⟩

/-- C8.  Restart resets: starting a task in a terminal state (failed,
cancelled or completed) that owns at least one file succeeds, resets
every file to pending with progress 0, error_message and processed_at
cleared, sets `total_files` to the file count, zeroes `processed_files`,
`violation_count` and `progress`, and moves the task to processing. -/
theorem start_task_resets (db : TaskDB) (now : Nat)
    (hterm : db.task.status = TaskStatus.failed ∨
      db.task.status = TaskStatus.cancelled ∨
      db.task.status = TaskStatus.completed)
    (hne : db.files ≠ []) :
    ∃ db', TaskService.start_task db now = Except.ok db' ∧
      db'.task.status = TaskStatus.processing ∧
      db'.task.processed_files = 0 ∧
      db'.task.violation_count = 0 ∧
      db'.task.progress = 0 ∧
      db'.task.error_message = none ∧
      db'.task.total_files = db.files.length ∧
      ∀ f ∈ db'.files, f.status = FileStatus.pending ∧ f.progress = 0 ∧
        f.error_message = none ∧ f.processed_at = none := by
  have hlen : db.files.length ≠ 0 := by
    simpa [List.length_eq_zero] using hne
  have hproc : db.task.status ≠ TaskStatus.processing := by
    rcases hterm with h | h | h <;> rw [h] <;> intro hc <;> cases hc
  have hreset : db.task.status = TaskStatus.cancelled ∨
      db.task.status = TaskStatus.failed ∨
      db.task.status = TaskStatus.completed := by tauto
  refine ⟨TaskDB.mk
      (ReviewTask.mk TaskStatus.processing 0 none db.files.length 0 0
        (some now) none)
      (db.files.map (fun f => ReviewFile.mk f.id f.file_type
        FileStatus.pending 0 none f.violation_count none))
      db.results, ?_, rfl, rfl, rfl, rfl, rfl, rfl, ?_⟩
  · unfold TaskService.start_task
    rw [if_neg hproc, if_neg hlen, if_pos hreset]
  · intro f hf
    rw [List.mem_map] at hf
    obtain ⟨g, _, hg⟩ := hf
    rw [← hg]
    exact ⟨rfl, rfl, rfl, rfl⟩

/-- Witness for C8 at a concrete input: restarting a failed task with one
failed file resets the file to pending and the counters to zero. -/
theorem start_task_resets_witness :
    ((mkTask TaskStatus.failed 1).status = TaskStatus.failed ∨
      (mkTask TaskStatus.failed 1).status = TaskStatus.cancelled ∨
      (mkTask TaskStatus.failed 1).status = TaskStatus.completed) ∧
    ∃ db', TaskService.start_task
        { task := mkTask TaskStatus.failed 1,
          files := [mkFile 1 FileType.video FileStatus.failed],
          results := [] } 4 = Except.ok db' ∧
      db'.task.status = TaskStatus.processing ∧
      db'.task.processed_files = 0 ∧
      db'.task.violation_count = 0 ∧
      db'.task.progress = 0 ∧
      db'.task.error_message = none ∧
      db'.task.total_files =
        [mkFile 1 FileType.video FileStatus.failed].length ∧
      ∀ f ∈ db'.files, f.status = FileStatus.pending ∧ f.progress = 0 ∧
        f.error_message = none ∧ f.processed_at = none :=
  ⟨Or.inl rfl,
    start_task_resets
      { task := mkTask TaskStatus.failed 1,
        files := [mkFile 1 FileType.video FileStatus.failed],
        results := [] } 4 (Or.inl rfl) (by decide)⟩

/-! ### Lemmas about single-row file updates -/

theorem find?_setFile (files : List ReviewFile) (fid : Nat)
    (upd : ReviewFile → ReviewFile) (hid : ∀ f, (upd f).id = f.id) :
    (setFile files fid upd).find? (fun f => f.id = fid) =
      (files.find? (fun f => f.id = fid)).map upd := by
  induction files with
  | nil => rfl
  | cons a l ih =>
    unfold setFile at ih ⊢
    simp only [List.map_cons, List.find?_cons]
    by_cases h : a.id = fid
    · simp [h, hid a]
    · simp [h, ih]

theorem setFile_setFile (l : List ReviewFile) (fid : Nat)
    (u1 u2 : ReviewFile → ReviewFile) (hid : ∀ f, (u1 f).id = f.id) :
    setFile (setFile l fid u1) fid u2 =
      setFile l fid (fun f => u2 (u1 f)) := by
  unfold setFile
  rw [List.map_map]
  apply List.map_congr_left
  intro a _
  by_cases h : a.id = fid
  · simp [Function.comp, h, hid a]
  · simp [Function.comp, h]

theorem update_task_progress_violation (db : TaskDB) (p : Option Nat) :
    (TaskService.update_task_progress db p).task.violation_count =
      violationFileCount db := by
  cases p <;>
    simp only [TaskService.update_task_progress, ReviewTask.update_progress] <;>
    split_ifs <;> rfl

/-- C10.  Violation counting is verdict-blind: recomputing a file's
`violation_count` sets it to the total number of Result rows attached to
that file (the query filters only on `file_id`, never on the verdict), so
a file owning at least one Result of any verdict — compliant and
uncertain included — gets `violation_count > 0` and is then counted as a
violating file by the task-level `violation_count` recomputation. -/
theorem violation_count_counts_all_verdicts (db : TaskDB) (fid : Nat)
    (f : ReviewFile) (p : Option Nat)
    (hf : getFileById db fid = some f)
    (hres : ∃ r ∈ db.results, r.file_id = fid) :
    (getFileById (FileService.update_file_violation_count db fid) fid).map
        ReviewFile.violation_count =
      some (db.results.filter (fun r => r.file_id = fid)).length ∧
    0 < (db.results.filter (fun r => r.file_id = fid)).length ∧
    0 < (TaskService.update_task_progress
        (FileService.update_file_violation_count db fid) p).task.violation_count := by
  have hcount : 0 < db.results.countP (fun r => r.file_id = fid) := by
    obtain ⟨r, hr, hrid⟩ := hres
    exact List.countP_pos_iff.mpr ⟨r, hr, by simp [hrid]⟩
  have hfind : getFileById (FileService.update_file_violation_count db fid) fid =
      (getFileById db fid).map (fun g =>
        { g with violation_count :=
            db.results.countP (fun r => r.file_id = fid) }) := by
    unfold getFileById FileService.update_file_violation_count
    exact find?_setFile db.files fid _ (fun _ => rfl)
  refine ⟨?_, ?_, ?_⟩
  · rw [hfind, hf]
    simp [List.countP_eq_length_filter]
  · rwa [List.countP_eq_length_filter] at hcount
  · rw [update_task_progress_violation]
    unfold violationFileCount FileService.update_file_violation_count setFile
    apply List.countP_pos_iff.mpr
    have hmem : f ∈ db.files := List.mem_of_find?_eq_some hf
    have hfid : f.id = fid := by
      have := List.find?_some hf
      simpa using this
    refine ⟨_, List.mem_map_of_mem _ hmem, ?_⟩
    simp [hfid, hcount]

/-- Witness for C10 at a concrete input: a file owning exactly one Result
with verdict compliant ends with `violation_count = 1` and the task-level
recount sees one violating file. -/
theorem violation_count_counts_all_verdicts_witness :
    getFileById
        { task := mkTask TaskStatus.processing 1,
          files := [mkFile 1 FileType.text FileStatus.completed],
          results := [ReviewResult.mk 1 ViolationResult.compliant] } 1 =
      some (mkFile 1 FileType.text FileStatus.completed) ∧
    0 < (TaskService.update_task_progress
        (FileService.update_file_violation_count
          { task := mkTask TaskStatus.processing 1,
            files := [mkFile 1 FileType.text FileStatus.completed],
            results := [ReviewResult.mk 1 ViolationResult.compliant] } 1)
        none).task.violation_count :=
  ⟨by decide,
    (violation_count_counts_all_verdicts
      { task := mkTask TaskStatus.processing 1,
        files := [mkFile 1 FileType.text FileStatus.completed],
        results := [ReviewResult.mk 1 ViolationResult.compliant] } 1
      (mkFile 1 FileType.text FileStatus.completed) none (by decide)
      ⟨{ file_id := 1, violation_result := ViolationResult.compliant },
        by decide, by decide⟩).2.2⟩

theorem aggregate_obs_idem (db : TaskDB) (n1 n2 : Nat) :
    taskObs (updateTaskProgressAggregate
        (updateTaskProgressAggregate db n1) n2) =
      taskObs (updateTaskProgressAggregate db n1) := by
  have hst : (updateTaskProgressAggregate
      (updateTaskProgressAggregate db n1) n2).task.status =
      (updateTaskProgressAggregate db n1).task.status := by
    rw [aggregate_status (updateTaskProgressAggregate db n1) n2,
      aggregate_files]
    by_cases hc : db.files.length ≤ terminalFileCount db.files
    · rw [if_pos hc, aggregate_status, if_pos hc]
    · rw [if_neg hc]
  have hpr : (updateTaskProgressAggregate
      (updateTaskProgressAggregate db n1) n2).task.progress =
      (updateTaskProgressAggregate db n1).task.progress := by
    rw [aggregate_progress (updateTaskProgressAggregate db n1) n2,
      aggregate_files, aggregate_total, aggregate_progress]
  have hpc : (updateTaskProgressAggregate
      (updateTaskProgressAggregate db n1) n2).task.processed_files =
      (updateTaskProgressAggregate db n1).task.processed_files := by
    rw [aggregate_processed (updateTaskProgressAggregate db n1) n2,
      aggregate_files, aggregate_processed]
  have hto : (updateTaskProgressAggregate
      (updateTaskProgressAggregate db n1) n2).task.total_files =
      (updateTaskProgressAggregate db n1).task.total_files := by
    rw [aggregate_total (updateTaskProgressAggregate db n1) n2]
  have hvc : (updateTaskProgressAggregate
      (updateTaskProgressAggregate db n1) n2).task.violation_count =
      (updateTaskProgressAggregate db n1).task.violation_count := by
    rw [aggregate_violation (updateTaskProgressAggregate db n1) n2,
      aggregate_violation db n1]
    unfold violationFileCount
    rw [aggregate_files]
  unfold taskObs
  rw [hst, hpr, hpc, hto, hvc]

/-- C4.  Idempotent aggregation: running the file-terminal aggregation
`_update_task_progress` any number of additional times, with no
intervening change to any file row, leaves the observable task state
(status, progress, processed_files, total_files, violation_count) exactly
as after the first run — no extra state transition occurs. -/
theorem idempotent_aggregation (db : TaskDB) (t0 : Nat) (ts : List Nat) :
    taskObs (ts.foldl updateTaskProgressAggregate
        (updateTaskProgressAggregate db t0)) =
      taskObs (updateTaskProgressAggregate db t0) := by
  induction ts generalizing db t0 with
  | nil => rfl
  | cons t ts ih =>
    rw [List.foldl_cons, ih (updateTaskProgressAggregate db t0) t]
    exact aggregate_obs_idem db t0 t

/-- C9.  The source's progress expression deviates from the claimed
floor: evaluated bit-exactly in binary64, `int((29 / 100) * 100)` is 28
(29/100 rounds to a double just below 0.29, and the product rounds to a
double just below 29), while the claim's floor — the value of the
idealized exact-division model — is 29.  The `progress` invariant of the
claim is therefore violated by the code at processed_files = 29,
total_files = 100. -/
theorem progress_float_deviation :
    pythonProgress 29 100 = 28 ∧
    (ReviewTask.mk TaskStatus.processing 0 none 100 29 0
        none none).update_progress.progress = 29 := by
  constructor
  · decide
  · rfl

theorem process_review_file_fails (db : TaskDB) (fid now : Nat)
    (committed : List ViolationResult) (e : String)
    (f : ReviewFile) (hf : getFileById db fid = some f)
    (hst : f.status = FileStatus.pending ∨ f.status = FileStatus.processing) :
    process_review_file true (PipelineOutcome.failsAfter committed e)
        db fid now =
      (ProcessOutcome.completedWith 0,
        updateTaskProgressAggregate
          { db with
            files := setFile db.files fid (fun g =>
              { g with status := FileStatus.completed, progress := 100,
                       processed_at := some now,
                       violation_count :=
                         (db.results ++
                           committed.map (fun v => ReviewResult.mk fid v)).countP
                           (fun r => r.file_id = fid) }),
            results := db.results ++
              committed.map (fun v => ReviewResult.mk fid v) }
          now) := by
  have hcond : ¬(f.status ≠ FileStatus.pending ∧
      f.status ≠ FileStatus.processing) := by
    rcases hst with h | h <;> simp [h]
  simp only [process_review_file, hf, if_neg hcond, runTypeHandler,
    FileService.update_file_status, FileService.update_file_violation_count]
  rw [setFile_setFile]
  rw [setFile_setFile]
  · rfl
  · intro g; rfl
  · intro g; rfl

/-- Counterexample for C5 as stated: a pending image file whose pipeline
raises after one (non-compliant) finding was already committed — the
scenario of `_process_image_file`, where each text-review Result is
committed before `review_visual_content` can raise — ends in status
completed with no error message recorded, and the committed Result row
persists.  The claim requires status failed with the error message on
the file. -/
theorem classification_failure_counterexample :
    (getFileById (process_review_file true
        (PipelineOutcome.failsAfter [ViolationResult.non_compliant]
          "visual review timeout")
        { task := mkTask TaskStatus.processing 1,
          files := [mkFile 1 FileType.image FileStatus.pending],
          results := [] } 1 7).2 1).map
        (fun f => (f.status, f.error_message)) =
      some (FileStatus.completed, none) ∧
    (process_review_file true
        (PipelineOutcome.failsAfter [ViolationResult.non_compliant]
          "visual review timeout")
        { task := mkTask TaskStatus.processing 1,
          files := [mkFile 1 FileType.image FileStatus.pending],
          results := [] } 1 7).2.results =
      [ReviewResult.mk 1 ViolationResult.non_compliant] :=
  ⟨rfl, rfl⟩

/-- C5 (amended).  Classification-failure handling: when the pipeline
raises while a pending/processing file is processed, after the findings
in `committed` were already saved, the type-specific handler swallows
the exception: the worker reports completion with zero findings, the
committed Result rows persist and no others are added, the file is set
to completed with progress 100 and its error_message left untouched
(the failure is not recorded), the file counts those rows in its
violation_count, and the task aggregation is still invoked, counting
the file as terminal (`processed_files` is the recomputed terminal
count and is positive). -/
theorem classification_failure_amended (db : TaskDB) (fid now : Nat)
    (committed : List ViolationResult) (e : String) (f : ReviewFile)
    (hf : getFileById db fid = some f)
    (hst : f.status = FileStatus.pending ∨ f.status = FileStatus.processing) :
    (process_review_file true (PipelineOutcome.failsAfter committed e)
        db fid now).1 = ProcessOutcome.completedWith 0 ∧
    (process_review_file true (PipelineOutcome.failsAfter committed e)
        db fid now).2.results =
      db.results ++ committed.map (fun v => ReviewResult.mk fid v) ∧
    (getFileById (process_review_file true
        (PipelineOutcome.failsAfter committed e) db fid now).2 fid).map
      ReviewFile.status = some FileStatus.completed ∧
    (getFileById (process_review_file true
        (PipelineOutcome.failsAfter committed e) db fid now).2 fid).map
      ReviewFile.progress = some 100 ∧
    (getFileById (process_review_file true
        (PipelineOutcome.failsAfter committed e) db fid now).2 fid).map
      ReviewFile.error_message = some f.error_message ∧
    (getFileById (process_review_file true
        (PipelineOutcome.failsAfter committed e) db fid now).2 fid).map
      ReviewFile.violation_count =
      some ((db.results ++
        committed.map (fun v => ReviewResult.mk fid v)).countP
          (fun r => r.file_id = fid)) ∧
    (process_review_file true (PipelineOutcome.failsAfter committed e)
        db fid now).2.task.processed_files =
      terminalFileCount (process_review_file true
        (PipelineOutcome.failsAfter committed e) db fid now).2.files ∧
    0 < (process_review_file true (PipelineOutcome.failsAfter committed e)
        db fid now).2.task.processed_files := by
  rw [process_review_file_fails db fid now committed e f hf hst]
  unfold getFileById at hf
  have hmem : f ∈ db.files := List.mem_of_find?_eq_some hf
  have hfid : f.id = fid := by simpa using List.find?_some hf
  refine ⟨rfl, ?_, ?_, ?_, ?_, ?_, ?_, ?_⟩
  · rw [aggregate_results]
  · unfold getFileById
    rw [aggregate_files, find?_setFile]
    · rw [hf]; rfl
    · intro g; rfl
  · unfold getFileById
    rw [aggregate_files, find?_setFile]
    · rw [hf]; rfl
    · intro g; rfl
  · unfold getFileById
    rw [aggregate_files, find?_setFile]
    · rw [hf]; rfl
    · intro g; rfl
  · unfold getFileById
    rw [aggregate_files, find?_setFile]
    · rw [hf]; rfl
    · intro g; rfl
  · rw [aggregate_processed, aggregate_files]
  · rw [aggregate_processed]
    unfold terminalFileCount setFile
    apply List.countP_pos_iff.mpr
    refine ⟨_, List.mem_map_of_mem _ hmem, ?_⟩
    simp [hfid]

/-- Witness for C5 (amended) at a concrete input: the pending image file
whose pipeline raises after one committed finding is reported as
completed with zero findings, and the committed row persists. -/
theorem classification_failure_amended_witness :
    getFileById
        { task := mkTask TaskStatus.processing 1,
          files := [mkFile 1 FileType.image FileStatus.pending],
          results := [] } 1 =
      some (mkFile 1 FileType.image FileStatus.pending) ∧
    ((mkFile 1 FileType.image FileStatus.pending).status =
        FileStatus.pending ∨
      (mkFile 1 FileType.image FileStatus.pending).status =
        FileStatus.processing) ∧
    (process_review_file true
        (PipelineOutcome.failsAfter [ViolationResult.non_compliant] "boom")
        { task := mkTask TaskStatus.processing 1,
          files := [mkFile 1 FileType.image FileStatus.pending],
          results := [] } 1 7).1 = ProcessOutcome.completedWith 0 ∧
    (process_review_file true
        (PipelineOutcome.failsAfter [ViolationResult.non_compliant] "boom")
        { task := mkTask TaskStatus.processing 1,
          files := [mkFile 1 FileType.image FileStatus.pending],
          results := [] } 1 7).2.results =
      [].append
        ([ViolationResult.non_compliant].map
          (fun v => ReviewResult.mk 1 v)) :=
  ⟨by decide, Or.inl rfl,
    (classification_failure_amended
      { task := mkTask TaskStatus.processing 1,
        files := [mkFile 1 FileType.image FileStatus.pending],
        results := [] } 1 7 [ViolationResult.non_compliant] "boom"
      (mkFile 1 FileType.image FileStatus.pending)
      (by decide) (Or.inl rfl)).1,
    (classification_failure_amended
      { task := mkTask TaskStatus.processing 1,
        files := [mkFile 1 FileType.image FileStatus.pending],
        results := [] } 1 7 [ViolationResult.non_compliant] "boom"
      (mkFile 1 FileType.image FileStatus.pending)
      (by decide) (Or.inl rfl)).2.1⟩

end MultimediaReview
